import Mathlib

/-!
Verification of a minimal container-image runner (Go, `src/app/main.go`).

The program authenticates against a registry, fetches a manifest, downloads
and extracts each filesystem layer into a temporary directory, copies the
target executable and a `dev/null` placeholder into that directory, chroots
into it and runs the requested command in a fresh PID namespace.

The embedding below is a shallow model of that code:
* network and OS effects are driven by explicit environment records whose
  fields give the outcome of each external call (transport error flags,
  HTTP responses, JSON-parse outcomes, child-process results);
* each operation returns the list of observable events it performs
  (requests issued, temp files written/removed, extractions, chroot, child
  launch) together with its Go-level error result;
* the file-manipulating helpers (`CopyFile`, `copyExecutableIntoDir`,
  `createDevNull`) are additionally modelled over an explicit map from
  path strings to files, with Go's `path.Join`/`path.Clean` semantics.
-/

/-- A manifest layer descriptor: `type FsLayer struct { BlobSum string }`. -/
structure FsLayer where
  blobSum : String
deriving DecidableEq

/-- `type Manifest struct { Name, Tag string; FsLayers []FsLayer }`. -/
structure Manifest where
  name : String
  tag : String
  fsLayers : List FsLayer
deriving DecidableEq

/-- An HTTP response as far as the program observes it: status code, the
`location` header (only read on redirects) and the body bytes. -/
structure HttpResp where
  status : Nat
  location : String
  body : List Nat
deriving DecidableEq

/-- Observable events of one program run, in the order they are performed. -/
inductive Event where
  /-- `http.Get` against the token endpoint for the image (main.go:142). -/
  | tokenRequest (image : String)
  /-- Authenticated GET of the manifest for a repo and tag (main.go:162-168). -/
  | manifestRequest (repo tag token : String)
  /-- Authenticated GET of a layer blob (main.go:195-201). -/
  | blobRequest (repo blobSum token : String)
  /-- Second GET against the `location` header after a 307 (main.go:208-215). -/
  | redirectRequest (url token : String)
  /-- `os.WriteFile(tarball, data, 0644)` of the downloaded bytes (main.go:228). -/
  | writeTemp (name : String) (data : List Nat)
  /-- `tar xpf <name> -C <dest>` (main.go:233-237). -/
  | extract (name dest : String)
  /-- Deferred `os.Remove(tarball)` (main.go:231). -/
  | removeTemp (name : String)
  /-- `CopyFile` of the command executable into the chroot dir (main.go:57). -/
  | copyExec (command : String)
  /-- Creation of the `dev/null` placeholder (main.go:62). -/
  | mkDevNull
  /-- `syscall.Chroot(dir)` (main.go:67). -/
  | chroot (dir : String)
  /-- `cmd.Run()` of the target command (main.go:79). -/
  | runChild (command : String)
deriving DecidableEq

/-- Error taxonomy of `fetchLayer`: transport failure at either hop, body
read failure, temp-file write failure, or a failing `tar` invocation. -/
inductive FetchErr where
  | transport1
  | transport2
  | readBody
  | writeFile
  | tarFail
deriving DecidableEq

/-- Outcomes of the external calls made by `fetchLayer` for one layer. -/
structure LayerEnv where
  /-- `http.DefaultClient.Do(req)` for the blob URL returns an error. -/
  transportErr : Bool
  /-- The response of the first GET. -/
  resp : HttpResp
  /-- The second `Do` (after a 307) returns an error. -/
  transportErr2 : Bool
  /-- The response of the redirected GET. -/
  resp2 : HttpResp
  /-- `io.ReadAll(res.Body)` fails. -/
  readErr : Bool
  /-- `os.WriteFile(tarball, ...)` fails. -/
  writeErr : Bool
  /-- The `tar xpf` child process succeeds. -/
  tarOk : Bool
deriving DecidableEq

/-- The temporary download file of a layer: `fmt.Sprintf("%s.tar", BlobSum)`. -/
def tarballName (fl : FsLayer) : String := fl.blobSum ++ ".tar"

/-- Tail of `fetchLayer` after the final response body has been selected
(main.go:222-237): read the body, write the tarball, run `tar`, and remove
the tarball when the function returns (the `defer os.Remove` fires after
`cmd.Run`, whether or not `tar` succeeded). -/
def fetchLayerTail (dest : String) (fl : FsLayer) (pre : List Event)
    (body : List Nat) (le : LayerEnv) : List Event × Except FetchErr Unit :=
  if le.readErr then (pre, Except.error FetchErr.readBody)
  else if le.writeErr then (pre, Except.error FetchErr.writeFile)
  else
    (pre ++ [Event.writeTemp (tarballName fl) body,
             Event.extract (tarballName fl) dest,
             Event.removeTemp (tarballName fl)],
     if le.tarOk then Except.ok () else Except.error FetchErr.tarFail)

/-- `fetchLayer(dest, token, repo, fsLayer)` (main.go:193-238): GET the blob;
on a 307 response issue a second GET to the `location` header carrying the
same bearer token and use that response instead; write the selected body to
`<blobSum>.tar`, extract it onto `dest`, and remove the temp file. -/
def fetchLayer (dest token repo : String) (fl : FsLayer) (le : LayerEnv) :
    List Event × Except FetchErr Unit :=
  if le.transportErr then
    ([Event.blobRequest repo fl.blobSum token], Except.error FetchErr.transport1)
  else if le.resp.status = 307 then
    if le.transportErr2 then
      ([Event.blobRequest repo fl.blobSum token,
        Event.redirectRequest le.resp.location token],
       Except.error FetchErr.transport2)
    else
      fetchLayerTail dest fl
        [Event.blobRequest repo fl.blobSum token,
         Event.redirectRequest le.resp.location token]
        le.resp2.body le
  else
    fetchLayerTail dest fl [Event.blobRequest repo fl.blobSum token]
      le.resp.body le

/-- The loop body of `extractImage` (main.go:185-189): fetch layers in
manifest order, stopping at (and propagating) the first error. The layer
at position `i` of the manifest sees the external outcomes `env i`. -/
def extractLayers (dest token repo : String) (env : Nat → LayerEnv) :
    Nat → List FsLayer → List Event × Except FetchErr Unit
  | _, [] => ([], Except.ok ())
  | i, fl :: rest =>
    match fetchLayer dest token repo fl (env i) with
    | (tr, Except.error e) => (tr, Except.error e)
    | (tr, Except.ok ()) =>
      match extractLayers dest token repo env (i + 1) rest with
      | (tr2, r2) => (tr ++ tr2, r2)

/-- `extractImage(dest, token, repo, manifest)` (main.go:184-191). -/
def extractImage (dest token repo : String) (m : Manifest)
    (env : Nat → LayerEnv) : List Event × Except FetchErr Unit :=
  extractLayers dest token repo env 0 m.fsLayers

/-- The tarball names of the `tar` invocations in a trace, in order. -/
def extractNames (tr : List Event) : List String :=
  tr.filterMap fun e =>
    match e with
    | Event.extract tb _ => some tb
    | _ => none

/-- Every `tar` invocation in the trace is immediately followed by the
removal of the tarball it extracted. -/
def extractsThenRemove : List Event → Bool
  | [] => true
  | Event.extract tb _ :: Event.removeTemp tb2 :: rest =>
    tb == tb2 && extractsThenRemove rest
  | Event.extract _ _ :: _ => false
  | _ :: rest => extractsThenRemove rest

/-- Outcomes of the external calls made by `getBearerToken` (main.go:138-158).
`parseToken` is the result of `json.Unmarshal` on the (opaque) response body:
`some t` when the body is valid JSON whose `token` field decodes to `t`
(possibly `""` when absent), `none` when unmarshalling fails. -/
structure TokenEnv where
  /-- `http.Get(url)` returns an error. -/
  transportErr : Bool
  /-- The HTTP status code of the token response. -/
  status : Nat
  /-- `io.ReadAll(response.Body)` fails. -/
  readErr : Bool
  /-- Result of `json.Unmarshal(body, &apiResponse)` on the token field. -/
  parseToken : Option String
deriving DecidableEq

/-- `getBearerToken(repo)` (main.go:138-158): anonymous GET against the token
endpoint, read the body, unmarshal it, return the `token` field. The HTTP
status code of the response is never inspected anywhere in the function. -/
def getBearerToken (image : String) (env : TokenEnv) :
    List Event × Except Unit String :=
  ([Event.tokenRequest image],
   if env.transportErr then Except.error ()
   else if env.readErr then Except.error ()
   else
     match env.parseToken with
     | none => Except.error ()
     | some t => Except.ok t)

/-- Outcomes of the external calls made by `fetchManifest` (main.go:160-182).
`parseManifest` is the result of `json.Unmarshal` of the body into the
`Manifest` struct; `fetchManifest` returns that unmarshal error verbatim. -/
structure ManifestEnv where
  /-- `http.DefaultClient.Do(req)` returns an error. -/
  transportErr : Bool
  /-- `io.ReadAll(res.Body)` fails. -/
  readErr : Bool
  /-- Result of `json.Unmarshal(body, &manifest)`. -/
  parseManifest : Except Unit Manifest

/-- The tag used by `fetchManifest`: hard-coded `tag := "latest"`
(main.go:161); no tag is ever parsed out of the image argument. -/
def manifestTag : String := "latest"

/-- The manifest URL built at main.go:162: the image argument is spliced in
verbatim as the repository name and the tag is always `manifestTag`. -/
def fetchManifestUrl (repo : String) : String :=
  "https://registry-1.docker.io/v2/library/" ++ repo ++ "/manifests/" ++ manifestTag

/-- `fetchManifest(token, repo)` (main.go:160-182): authenticated GET of the
manifest for the hard-coded `latest` tag, body unmarshalled into `Manifest`. -/
def fetchManifest (token image : String) (env : ManifestEnv) :
    List Event × Except Unit Manifest :=
  ([Event.manifestRequest image manifestTag token],
   if env.transportErr then Except.error ()
   else if env.readErr then Except.error ()
   else env.parseManifest)

/-- Result of `cmd.Run()` for the target command (main.go:79-85): either the
child could not be started (`err` is not an `*exec.ExitError`), or the child
ran and terminated with the given exit code (`nil` error stands for code 0). -/
inductive ChildResult where
  | startFailure
  | exited (code : Nat)
deriving DecidableEq

/-- All external outcomes one run of `main` can observe. `mkdirTempErr`
records whether `os.MkdirTemp("", "")` (main.go:38) failed; the returned
path is `mkdirTemp` either way. -/
structure Env where
  /-- `os.Args[2]`. -/
  image : String
  /-- `os.Args[3]`. -/
  command : String
  /-- The directory path returned by `os.MkdirTemp`. -/
  mkdirTemp : String
  /-- Whether `os.MkdirTemp` returned an error. -/
  mkdirTempErr : Bool
  tok : TokenEnv
  man : ManifestEnv
  /-- Outcomes for the blob fetch of the layer at each manifest position. -/
  layer : Nat → LayerEnv
  /-- `copyExecutableIntoDir` (main.go:57) succeeds. -/
  copyOk : Bool
  /-- `createDevNull` (main.go:62) succeeds. -/
  devNullOk : Bool
  /-- `syscall.Chroot` (main.go:67) succeeds. -/
  chrootOk : Bool
  child : ChildResult

/-- The observable outcome of one run of `main`: the process exit code and
the event trace. A run that falls off the end of `main` exits with code 0. -/
structure MainOut where
  exit : Nat
  trace : List Event
deriving DecidableEq

/-- `main` (main.go:33-87). The error returned by `os.MkdirTemp` at
main.go:38 is assigned to `err` but overwritten by the `getBearerToken`
call at main.go:40 before any check, so it never influences the run; the
pipeline continues with whatever path value was returned. Every other error
return is checked and answered with a diagnostic and `os.Exit(1)`. After a
successful chroot, `cmd.Run()` is forwarded: an `*exec.ExitError` makes the
program exit with the child's own exit code, any other error with code 1. -/
def runMain (env : Env) : MainOut :=
  let chrootDir := env.mkdirTemp
  let tTr := (getBearerToken env.image env.tok).1
  match (getBearerToken env.image env.tok).2 with
  | Except.error _ => ⟨1, tTr⟩
  | Except.ok token =>
    let mTr := (fetchManifest token env.image env.man).1
    match (fetchManifest token env.image env.man).2 with
    | Except.error _ => ⟨1, tTr ++ mTr⟩
    | Except.ok manifest =>
      let eTr := (extractImage chrootDir token env.image manifest env.layer).1
      match (extractImage chrootDir token env.image manifest env.layer).2 with
      | Except.error _ => ⟨1, tTr ++ mTr ++ eTr⟩
      | Except.ok () =>
        let tr1 := tTr ++ mTr ++ eTr ++ [Event.copyExec env.command]
        if env.copyOk = false then ⟨1, tr1⟩
        else
          let tr2 := tr1 ++ [Event.mkDevNull]
          if env.devNullOk = false then ⟨1, tr2⟩
          else
            let tr3 := tr2 ++ [Event.chroot chrootDir]
            if env.chrootOk = false then ⟨1, tr3⟩
            else
              let tr4 := tr3 ++ [Event.runChild env.command]
              match env.child with
              | ChildResult.startFailure => ⟨1, tr4⟩
              | ChildResult.exited c => ⟨c, tr4⟩

/-- Whether a trace contains a manifest request. -/
def hasManifestReq (tr : List Event) : Bool :=
  tr.any fun e =>
    match e with
    | Event.manifestRequest _ _ _ => true
    | _ => false

/-- Whether an event is a chroot activation. -/
def isChroot : Event → Bool
  | Event.chroot _ => true
  | _ => false

/-- Whether a trace contains a chroot activation. -/
def hasChroot (tr : List Event) : Bool :=
  tr.any isChroot

/-- Events that belong to layer materialization (blob requests, temp-file
writes and removals, extractions). -/
def isLayerEvent : Event → Bool
  | Event.blobRequest _ _ _ => true
  | Event.redirectRequest _ _ => true
  | Event.writeTemp _ _ => true
  | Event.extract _ _ => true
  | Event.removeTemp _ => true
  | _ => false

/-- Whether an event is the executable-copy step. -/
def isCopyExec : Event → Bool
  | Event.copyExec _ => true
  | _ => false

/-- Whether an event is the dev/null creation step. -/
def isMkDevNull : Event → Bool
  | Event.mkDevNull => true
  | _ => false

/-- The events strictly before the first chroot activation of a trace
(the whole trace when it contains none). -/
def beforeFirstChroot : List Event → List Event
  | [] => []
  | Event.chroot _ :: _ => []
  | e :: rest => e :: beforeFirstChroot rest

/-- The events strictly after the first chroot activation of a trace. -/
def afterFirstChroot : List Event → List Event
  | [] => []
  | Event.chroot _ :: rest => rest
  | _ :: rest => afterFirstChroot rest

/-- Whether every pipeline stage up to and including dev/null creation
succeeds, i.e. whether `main` reaches the `syscall.Chroot` call. -/
def prepOk (env : Env) : Bool :=
  match (getBearerToken env.image env.tok).2 with
  | Except.error _ => false
  | Except.ok token =>
    match (fetchManifest token env.image env.man).2 with
    | Except.error _ => false
    | Except.ok manifest =>
      match (extractImage env.mkdirTemp token env.image manifest env.layer).2 with
      | Except.error _ => false
      | Except.ok () => env.copyOk && env.devNullOk

/-- Whether every pipeline stage before `cmd.Run` succeeds, i.e. whether
`main` actually launches the child command. -/
def pipelineOk (env : Env) : Bool :=
  prepOk env && env.chrootOk

/-- A regular file as the program observes it: its bytes and its Unix
permission/mode bits. -/
structure File where
  content : List Nat
  mode : Nat
deriving DecidableEq

/-- A flat view of the filesystem: a map from path strings to files.
Directories are not represented; `os.MkdirAll` calls are modelled as
always succeeding and leaving the map unchanged. -/
def Fs : Type := String → Option File

/-- Point update of a filesystem map. -/
def fsSet (fs : Fs) (p : String) (f : File) : Fs :=
  fun q => if q = p then some f else fs q

/-- `os.Rename(src, dst)`: the destination path now holds the source path's
file and the source path is gone. -/
def osRename (fs : Fs) (src dst : String) : Fs :=
  fun q => if q = dst then fs src else if q = src then none else fs q

/-- `os.OpenFile(p, O_RDWR|O_CREATE, perm)`: creates an empty file with the
given permission bits when the path is absent; an existing file (content and
mode) is left untouched, since the flags include neither O_TRUNC nor a
permission update. -/
def openFileCreate (fs : Fs) (p : String) (perm : Nat) : Fs :=
  match fs p with
  | some _ => fs
  | none => fsSet fs p ⟨[], perm⟩

/-- `io.Copy(dst, src)` onto a handle positioned at offset 0: the data is
written from the start of the file; bytes of an existing file beyond the
written length survive (the open mode has no O_TRUNC). -/
def ioCopy (fs : Fs) (p : String) (data : List Nat) : Fs :=
  match fs p with
  | none => fs
  | some f => fsSet fs p ⟨data ++ f.content.drop data.length, f.mode⟩

/-- `os.WriteFile(p, data, perm)`: O_WRONLY|O_CREATE|O_TRUNC — the file's
content becomes exactly `data`; the permission bits are applied only when
the file is created, an existing file keeps its mode. -/
def osWriteFile (fs : Fs) (p : String) (data : List Nat) (perm : Nat) : Fs :=
  fsSet fs p
    ⟨data,
     match fs p with
     | some f => f.mode
     | none => perm⟩

/-- `CopyFile(sourceFilePath, destinationFilePath)` (main.go:99-128):
stat the source (error when absent), open it (the open handle keeps the
source file's content through the later steps), rename an existing
destination to `<destination>.old`, create the destination with the
source's permission bits, and copy the source bytes into it. -/
def CopyFile (fs : Fs) (sourceFilePath destinationFilePath : String) :
    Except Unit Fs :=
  match fs sourceFilePath with
  | none => Except.error ()
  | some sourceFileStat =>
    let fs1 :=
      match fs destinationFilePath with
      | some _ => osRename fs destinationFilePath (destinationFilePath ++ ".old")
      | none => fs
    let fs2 := openFileCreate fs1 destinationFilePath sourceFileStat.mode
    Except.ok (ioCopy fs2 destinationFilePath sourceFileStat.content)

/-- Split a string at every occurrence of a separator character;
accumulator-based helper. -/
def splitCharAux (sep : Char) : List Char → List Char → List String
  | [], cur => [String.mk cur.reverse]
  | c :: rest, cur =>
    if c = sep then String.mk cur.reverse :: splitCharAux sep rest []
    else splitCharAux sep rest (c :: cur)

/-- Split a string at every occurrence of a separator character. -/
def splitChar (sep : Char) (s : String) : List String :=
  splitCharAux sep s.toList []

/-- Join strings with a separator. -/
def joinWith (sep : String) : List String → String
  | [] => ""
  | [s] => s
  | s :: rest => s ++ sep ++ joinWith sep rest

/-- Whether a path string starts with a slash. -/
def isRooted (p : String) : Bool :=
  match p.toList with
  | [] => false
  | c :: _ => c == '/'

/-- The component-processing loop of Go's `path.Clean`: drop empty and `.`
components, let `..` pop the last kept component (kept literally at the
start of a relative path, dropped at the root of an absolute one). The
first list is the stack of kept components in reverse order. -/
def cleanLoop (rooted : Bool) : List String → List String → List String
  | out, [] => out
  | out, c :: rest =>
    if c = "" || c = "." then cleanLoop rooted out rest
    else if c = ".." then
      match out with
      | [] =>
        if rooted then cleanLoop rooted [] rest
        else cleanLoop rooted [".."] rest
      | top :: outRest =>
        if top = ".." then cleanLoop rooted (".." :: top :: outRest) rest
        else cleanLoop rooted outRest rest
    else cleanLoop rooted (c :: out) rest

/-- Go's `path.Clean`. -/
def pathClean (p : String) : String :=
  if p = "" then "."
  else
    let rooted := isRooted p
    let comps := (cleanLoop rooted [] (splitChar '/' p)).reverse
    if rooted then "/" ++ joinWith "/" comps
    else if comps = [] then "." else joinWith "/" comps

/-- Go's `path.Join` on two elements: concatenate the non-empty elements
with slashes and clean the result (empty components are dropped by the
clean either way). -/
def pathJoin (a b : String) : String :=
  match ([a, b].filter fun s => !(s == "")) with
  | [] => ""
  | parts => pathClean (joinWith "/" parts)

/-- Go's `path.Join` on three elements. -/
def pathJoin3 (a b c : String) : String :=
  match ([a, b, c].filter fun s => !(s == "")) with
  | [] => ""
  | parts => pathClean (joinWith "/" parts)

/-- `copyExecutableIntoDir(chrootDir, executablePath)` (main.go:89-97):
`os.MkdirAll` of the parent directory (not represented in the map, always
succeeds here), then `CopyFile` of the executable to
`path.Join(chrootDir, executablePath)`. -/
def copyExecutableIntoDir (fs : Fs) (chrootDir executablePath : String) :
    Except Unit Fs :=
  CopyFile fs executablePath (pathJoin chrootDir executablePath)

/-- The path at which `createDevNull` writes its placeholder. -/
def devNullPath (chrootDir : String) : String :=
  pathJoin3 chrootDir "dev" "null"

/-- `createDevNull(chrootDir)` (main.go:130-136): `os.MkdirAll` of the `dev`
directory (not represented), then `os.WriteFile` of an empty byte slice with
permission 0644 at `path.Join(chrootDir, "dev", "null")`. -/
def createDevNull (fs : Fs) (chrootDir : String) : Fs :=
  osWriteFile fs (devNullPath chrootDir) [] 420

/-- The root-preparation steps `main` runs between extraction and chroot
(main.go:57-65): copy the executable into the chroot dir, then create the
dev/null placeholder. -/
def prepareRoot (fs : Fs) (chrootDir command : String) : Except Unit Fs :=
  match copyExecutableIntoDir fs chrootDir command with
  | Except.error e => Except.error e
  | Except.ok fs2 => Except.ok (createDevNull fs2 chrootDir)

/-- Whether the filesystem holds a zero-length file at a path. -/
def isZeroLenAt (fs : Fs) (p : String) : Bool :=
  match fs p with
  | some f => f.content.isEmpty
  | none => false

/-- Modelled from the spec for comparison with the code: the repository part
of an image reference, "repository name + tag". -/
def specResolveRepo (ref : String) : String :=
  match splitChar ':' ref with
  | [] => ref
  | [r] => r
  | r :: _ => r

/-- Modelled from the spec for comparison with the code: the tag part of an
image reference, "tag defaults to latest when unspecified". -/
def specResolveTag (ref : String) : String :=
  match splitChar ':' ref with
  | [] => "latest"
  | [_] => "latest"
  | _ :: rest => joinWith ":" rest

/-- Modelled from the spec for comparison with the code: the manifest URL
for the resolved repository and tag of an image reference. -/
def specManifestUrl (ref : String) : String :=
  "https://registry-1.docker.io/v2/library/" ++ specResolveRepo ref ++
    "/manifests/" ++ specResolveTag ref

/-- Whether the run gets as far as the extraction stage and that stage
fails. -/
def extractStageFailed (env : Env) : Bool :=
  match (getBearerToken env.image env.tok).2 with
  | Except.error _ => false
  | Except.ok token =>
    match (fetchManifest token env.image env.man).2 with
    | Except.error _ => false
    | Except.ok manifest =>
      match (extractImage env.mkdirTemp token env.image manifest env.layer).2 with
      | Except.error _ => true
      | Except.ok () => false

/-- The request events a successful `fetchLayer` emits before writing the
temp file: the blob GET, plus the redirected GET when the first response
was a 307. -/
def layerRequestEvents (token repo : String) (fl : FsLayer) (le : LayerEnv) :
    List Event :=
  if le.resp.status = 307 then
    [Event.blobRequest repo fl.blobSum token,
     Event.redirectRequest le.resp.location token]
  else
    [Event.blobRequest repo fl.blobSum token]

/-- The body a successful `fetchLayer` writes to the temp file: the
redirect target's body after a 307, the first response's body otherwise. -/
def layerBody (le : LayerEnv) : List Nat :=
  if le.resp.status = 307 then le.resp2.body else le.resp.body

theorem fetchLayerOkTrace (dest token repo : String) (fl : FsLayer)
    (le : LayerEnv) (h : (fetchLayer dest token repo fl le).2 = Except.ok ()) :
    (fetchLayer dest token repo fl le).1 =
      layerRequestEvents token repo fl le ++
        [Event.writeTemp (tarballName fl) (layerBody le),
         Event.extract (tarballName fl) dest,
         Event.removeTemp (tarballName fl)] := by
  unfold fetchLayer fetchLayerTail at h ⊢
  unfold layerRequestEvents layerBody
  split_ifs at h ⊢ <;> simp_all

theorem extractLayersOkShape (dest token repo : String) (env : Nat → LayerEnv) :
    ∀ (ls : List FsLayer) (i : Nat) (tr : List Event),
      extractLayers dest token repo env i ls = (tr, Except.ok ()) →
      extractNames tr = ls.map tarballName ∧ extractsThenRemove tr = true := by
  intro ls
  induction ls with
  | nil =>
    intro i tr h
    unfold extractLayers at h
    obtain ⟨h1, _⟩ := Prod.mk.injEq .. ▸ h
    subst h1
    exact ⟨rfl, rfl⟩
  | cons fl rest ih =>
    intro i tr h
    unfold extractLayers at h
    rcases hfl : fetchLayer dest token repo fl (env i) with ⟨ftr, fres⟩
    rw [hfl] at h
    cases fres with
    | error e => simp at h
    | ok u =>
      cases u
      rcases hrest : extractLayers dest token repo env (i + 1) rest with ⟨tr2, r2⟩
      rw [hrest] at h
      obtain ⟨htr, hr2⟩ := Prod.mk.injEq .. ▸ h
      subst htr
      cases r2 with
      | error e => simp at hr2
      | ok u2 =>
        obtain ⟨hn, he⟩ := ih (i + 1) tr2 hrest
        have hftr := fetchLayerOkTrace dest token repo fl (env i)
          (by rw [hfl])
        rw [hfl] at hftr
        simp only at hftr
        subst hftr
        constructor
        · unfold layerRequestEvents
          split_ifs <;> simpa [extractNames] using hn
        · unfold layerRequestEvents
          split_ifs <;>
            simpa [extractsThenRemove] using he

/-- Claim C3: for every manifest with N layer descriptors, a successful
materialization invokes archive extraction exactly N times, once per layer
in the manifest's listed order (the extracted tarball names are exactly the
layers' tarball names, in order), and each layer's temporary download file
is removed right after that layer's extraction. -/
theorem extractionCountOrderAndCleanup (dest token repo : String)
    (m : Manifest) (env : Nat → LayerEnv) (tr : List Event)
    (h : extractImage dest token repo m env = (tr, Except.ok ())) :
    (extractNames tr).length = m.fsLayers.length ∧
    extractNames tr = m.fsLayers.map tarballName ∧
    extractsThenRemove tr = true := by
  obtain ⟨hn, he⟩ := extractLayersOkShape dest token repo env m.fsLayers 0 tr h
  exact ⟨by rw [hn]; simp, hn, he⟩

def c3Manifest : Manifest := ⟨"alpine", "latest", [⟨"b1"⟩, ⟨"b2"⟩]⟩

def c3LayerEnv : Nat → LayerEnv :=
  fun _ => ⟨false, ⟨200, "", [7]⟩, false, ⟨200, "", [9]⟩, false, false, true⟩

def c3Trace : List Event :=
  (extractImage "/d" "tok" "alpine" c3Manifest c3LayerEnv).1

theorem extractionCountOrderAndCleanup_witness :
    (extractNames c3Trace).length = c3Manifest.fsLayers.length ∧
    extractNames c3Trace = c3Manifest.fsLayers.map tarballName ∧
    extractsThenRemove c3Trace = true :=
  extractionCountOrderAndCleanup "/d" "tok" "alpine" c3Manifest c3LayerEnv
    c3Trace rfl

theorem extractLayersAbort (dest token repo : String) (env : Nat → LayerEnv)
    (bad : FsLayer) (post : List FsLayer) (e : FetchErr) :
    ∀ (pre : List FsLayer) (i : Nat),
      (∀ p ∈ pre.enumFrom i, (fetchLayer dest token repo p.2 (env p.1)).2 =
        Except.ok ()) →
      (fetchLayer dest token repo bad (env (i + pre.length))).2 =
        Except.error e →
      extractLayers dest token repo env i (pre ++ bad :: post) =
        (((pre.enumFrom i).map fun p =>
            (fetchLayer dest token repo p.2 (env p.1)).1).flatten ++
          (fetchLayer dest token repo bad (env (i + pre.length))).1,
         Except.error e) := by
  intro pre
  induction pre with
  | nil =>
    intro i hpre hbad
    simp only [List.nil_append, List.length_nil, Nat.add_zero] at hbad ⊢
    unfold extractLayers
    rcases hb : fetchLayer dest token repo bad (env i) with ⟨btr, bres⟩
    rw [hb] at hbad
    cases bres with
    | error e2 =>
      have he2 : e2 = e := by simpa using hbad
      subst he2
      simp
    | ok u =>
      cases u
      simp at hbad
  | cons fl rest ih =>
    intro i hpre hbad
    have hhead : (fetchLayer dest token repo fl (env i)).2 = Except.ok () := by
      refine hpre (i, fl) ?_
      simp [List.enumFrom]
    have htail : ∀ p ∈ rest.enumFrom (i + 1),
        (fetchLayer dest token repo p.2 (env p.1)).2 = Except.ok () := by
      intro p hp
      refine hpre p ?_
      simp [List.enumFrom, hp]
    have hbad2 : (fetchLayer dest token repo bad (env (i + 1 + rest.length))).2 =
        Except.error e := by
      have harg : i + (fl :: rest).length = i + 1 + rest.length := by
        simp [List.length_cons]; omega
      rw [harg] at hbad
      exact hbad
    have hrec := ih (i + 1) htail hbad2
    simp only [List.cons_append]
    unfold extractLayers
    rcases hf : fetchLayer dest token repo fl (env i) with ⟨ftr, fres⟩
    rw [hf] at hhead
    simp only at hhead
    subst hhead
    rw [hrec]
    have harg2 : i + (rest.length + 1) = i + 1 + rest.length := by omega
    simp [List.enumFrom, hf, List.append_assoc, harg2]

/-- Claim C6: if extraction of a layer fails, materialization aborts
immediately: the result trace consists of exactly the traces of the layers
before the failing one followed by the failing layer's own trace (so no
later layer is fetched or extracted and the failed layer is not retried),
and the failing layer's error is returned unchanged to the caller. -/
theorem extractionFailureAborts (dest token repo : String) (m : Manifest)
    (env : Nat → LayerEnv) (pre : List FsLayer) (bad : FsLayer)
    (post : List FsLayer) (e : FetchErr)
    (hm : m.fsLayers = pre ++ bad :: post)
    (hpre : ∀ p ∈ pre.enum, (fetchLayer dest token repo p.2 (env p.1)).2 =
      Except.ok ())
    (hbad : (fetchLayer dest token repo bad (env pre.length)).2 =
      Except.error e) :
    extractImage dest token repo m env =
      ((pre.enum.map fun p =>
          (fetchLayer dest token repo p.2 (env p.1)).1).flatten ++
        (fetchLayer dest token repo bad (env pre.length)).1,
       Except.error e) := by
  unfold extractImage
  rw [hm]
  have h0 : (fetchLayer dest token repo bad (env (0 + pre.length))).2 =
      Except.error e := by simpa using hbad
  have := extractLayersAbort dest token repo env bad post e pre 0
    (by simpa [List.enum] using hpre) h0
  simpa [List.enum] using this

def c6Bad : FsLayer := ⟨"b1"⟩

def c6Manifest : Manifest := ⟨"alpine", "latest", [c6Bad, ⟨"b2"⟩]⟩

/-- Layer 0 fails at the `tar` step; any later layer would succeed. -/
def c6LayerEnv : Nat → LayerEnv := fun i =>
  ⟨false, ⟨200, "", [7]⟩, false, ⟨200, "", [9]⟩, false, false, i ≠ 0⟩

theorem extractionFailureAborts_witness :
    extractImage "/d" "tok" "alpine" c6Manifest c6LayerEnv =
      ((([] : List FsLayer).enum.map fun p =>
          (fetchLayer "/d" "tok" "alpine" p.2 (c6LayerEnv p.1)).1).flatten ++
        (fetchLayer "/d" "tok" "alpine" c6Bad
          (c6LayerEnv ([] : List FsLayer).length)).1,
       Except.error FetchErr.tarFail) :=
  extractionFailureAborts "/d" "tok" "alpine" c6Manifest c6LayerEnv []
    c6Bad [⟨"b2"⟩] FetchErr.tarFail rfl (by simp) rfl

/-- Claim C4: when the first blob response is an HTTP 307 redirect and the
remaining external calls succeed, `fetchLayer` issues a second GET to the
redirect location carrying the same bearer token, and the body written to
the temporary file is the redirect target's response body — the redirect
response's own body is never written. -/
theorem redirectResolvedBeforeWrite (dest token repo : String) (fl : FsLayer)
    (le : LayerEnv) (h307 : le.resp.status = 307)
    (hT1 : le.transportErr = false) (hT2 : le.transportErr2 = false)
    (hR : le.readErr = false) (hW : le.writeErr = false) :
    fetchLayer dest token repo fl le =
      ([Event.blobRequest repo fl.blobSum token,
        Event.redirectRequest le.resp.location token,
        Event.writeTemp (tarballName fl) le.resp2.body,
        Event.extract (tarballName fl) dest,
        Event.removeTemp (tarballName fl)],
       if le.tarOk then Except.ok () else Except.error FetchErr.tarFail) := by
  unfold fetchLayer fetchLayerTail
  simp [h307, hT1, hT2, hR, hW]

def c4LayerEnv : LayerEnv :=
  ⟨false, ⟨307, "https://cdn.example/blob", [1, 2]⟩, false,
   ⟨200, "", [3, 4]⟩, false, false, true⟩

theorem redirectResolvedBeforeWrite_witness :
    fetchLayer "/d" "tok" "alpine" ⟨"b1"⟩ c4LayerEnv =
      ([Event.blobRequest "alpine" "b1" "tok",
        Event.redirectRequest "https://cdn.example/blob" "tok",
        Event.writeTemp (tarballName ⟨"b1"⟩) [3, 4],
        Event.extract (tarballName ⟨"b1"⟩) "/d",
        Event.removeTemp (tarballName ⟨"b1"⟩)],
       Except.ok ()) := by
  have := redirectResolvedBeforeWrite "/d" "tok" "alpine" ⟨"b1"⟩ c4LayerEnv
    rfl rfl rfl rfl rfl
  simpa [c4LayerEnv] using this

/-- Claim C8 counterexample: for the image reference "alpine:3.19" the
spec-side resolved tag is "3.19", but the code's manifest GET uses the tag
"latest" and splices the whole reference string into the repository slot,
so the manifest request is not issued for the resolved tag of the
reference. -/
theorem manifestTagNotResolvedFromReference :
    specResolveTag "alpine:3.19" = "3.19" ∧
    manifestTag ≠ specResolveTag "alpine:3.19" ∧
    fetchManifestUrl "alpine:3.19" ≠ specManifestUrl "alpine:3.19" := by
  refine ⟨rfl, ?_, ?_⟩ <;> decide

/-- Claim C8 (amended): the code never parses a tag out of the image
argument: the manifest GET always uses the literal tag "latest" with the
whole argument as repository name. Its URL therefore agrees with the
spec's resolution of repository and tag exactly when the reference
contains no ":" separator, i.e. when the tag is unspecified and the spec's
default of "latest" applies. -/
theorem manifestUrlUsesLatestTag (ref : String) :
    manifestTag = "latest" ∧
    fetchManifestUrl ref =
      "https://registry-1.docker.io/v2/library/" ++ ref ++
        "/manifests/" ++ "latest" ∧
    (splitChar ':' ref = [ref] → fetchManifestUrl ref = specManifestUrl ref) := by
  refine ⟨rfl, rfl, ?_⟩
  intro h
  unfold fetchManifestUrl specManifestUrl specResolveRepo specResolveTag manifestTag
  rw [h]

theorem manifestUrlUsesLatestTag_witness :
    fetchManifestUrl "busybox" = specManifestUrl "busybox" :=
  (manifestUrlUsesLatestTag "busybox").2.2 rfl

theorem runMainTraceHead (env : Env) :
    (runMain env).trace.head? = some (Event.tokenRequest env.image) := by
  unfold runMain
  split
  · simp [getBearerToken]
  next x token heq =>
    split
    · simp [getBearerToken]
    next y manifest heq2 =>
      cases hE : (extractImage env.mkdirTemp token env.image manifest
          env.layer).2 with
      | error e => simp [hE, getBearerToken]
      | ok u =>
        cases u
        split_ifs <;> try simp [hE, getBearerToken]
        cases env.child <;> simp [hE, getBearerToken]

/-- Claim C9: a failure of `os.MkdirTemp` at startup is silently ignored —
the error it returns is assigned to `err` (main.go:38) but overwritten by
the `getBearerToken` call (main.go:40) before ever being checked, so the
run's outcome is exactly the same whether or not the error occurred, and
the pipeline proceeds (the token request is issued first in every run)
with whatever path value `os.MkdirTemp` returned. -/
theorem mkdirTempErrorSilentlyIgnored (env : Env) :
    runMain { env with mkdirTempErr := true } =
      runMain { env with mkdirTempErr := false } ∧
    (runMain env).trace.head? = some (Event.tokenRequest env.image) :=
  ⟨rfl, runMainTraceHead env⟩

theorem fetchLayerEventsLayer (dest token repo : String) (fl : FsLayer)
    (le : LayerEnv) :
    ((fetchLayer dest token repo fl le).1.all isLayerEvent) = true := by
  unfold fetchLayer fetchLayerTail
  split_ifs <;> simp [isLayerEvent]

theorem extractLayersEventsLayer (dest token repo : String)
    (env : Nat → LayerEnv) :
    ∀ (ls : List FsLayer) (i : Nat),
      ((extractLayers dest token repo env i ls).1.all isLayerEvent) = true := by
  intro ls
  induction ls with
  | nil => intro i; simp [extractLayers]
  | cons fl rest ih =>
    intro i
    unfold extractLayers
    rcases hf : fetchLayer dest token repo fl (env i) with ⟨ftr, fres⟩
    have hftr : ftr.all isLayerEvent = true := by
      have h1 := fetchLayerEventsLayer dest token repo fl (env i)
      rw [hf] at h1
      exact h1
    cases fres with
    | error e => simpa using hftr
    | ok u =>
      cases u
      rcases hr : extractLayers dest token repo env (i + 1) rest with ⟨tr2, r2⟩
      have h2 : tr2.all isLayerEvent = true := by
        have h3 := ih (i + 1)
        rw [hr] at h3
        exact h3
      simp [List.all_append, hftr, h2]

theorem extractImageEventsLayer (dest token repo : String) (m : Manifest)
    (env : Nat → LayerEnv) :
    ((extractImage dest token repo m env).1.all isLayerEvent) = true :=
  extractLayersEventsLayer dest token repo env m.fsLayers 0

theorem noChrootOfLayerEvents (tr : List Event)
    (h : tr.all isLayerEvent = true) : tr.any isChroot = false := by
  induction tr with
  | nil => rfl
  | cons e t ih =>
    simp only [List.all_cons, Bool.and_eq_true] at h
    obtain ⟨he, ht⟩ := h
    have hce : isChroot e = false := by
      cases e <;> simp_all [isLayerEvent, isChroot]
    simp [hce, ih ht]

theorem beforeFirstChroot_cons_of_not (e : Event) (tr : List Event)
    (h : isChroot e = false) :
    beforeFirstChroot (e :: tr) = e :: beforeFirstChroot tr := by
  cases e <;> simp_all [isChroot, beforeFirstChroot]

theorem afterFirstChroot_cons_of_not (e : Event) (tr : List Event)
    (h : isChroot e = false) :
    afterFirstChroot (e :: tr) = afterFirstChroot tr := by
  cases e <;> simp_all [isChroot, afterFirstChroot]

theorem beforeFirstChroot_append (l r : List Event)
    (h : l.any isChroot = false) :
    beforeFirstChroot (l ++ r) = l ++ beforeFirstChroot r := by
  induction l with
  | nil => simp
  | cons e t ih =>
    simp only [List.any_cons, Bool.or_eq_false_iff] at h
    obtain ⟨he, ht⟩ := h
    rw [List.cons_append, beforeFirstChroot_cons_of_not e _ he, ih ht,
      List.cons_append]

theorem afterFirstChroot_append (l r : List Event)
    (h : l.any isChroot = false) :
    afterFirstChroot (l ++ r) = afterFirstChroot r := by
  induction l with
  | nil => simp
  | cons e t ih =>
    simp only [List.any_cons, Bool.or_eq_false_iff] at h
    obtain ⟨he, ht⟩ := h
    rw [List.cons_append, afterFirstChroot_cons_of_not e _ he, ih ht]

theorem runMainPrepOkShape (env : Env) (h : prepOk env = true) :
    ∃ token manifest,
      (getBearerToken env.image env.tok).2 = Except.ok token ∧
      (fetchManifest token env.image env.man).2 = Except.ok manifest ∧
      (extractImage env.mkdirTemp token env.image manifest env.layer).2 =
        Except.ok () ∧
      env.copyOk = true ∧ env.devNullOk = true ∧
      runMain env =
        ⟨(if env.chrootOk = false then 1
          else
            match env.child with
            | ChildResult.startFailure => 1
            | ChildResult.exited c => c),
         [Event.tokenRequest env.image,
          Event.manifestRequest env.image manifestTag token] ++
           (extractImage env.mkdirTemp token env.image manifest env.layer).1 ++
           [Event.copyExec env.command, Event.mkDevNull,
            Event.chroot env.mkdirTemp] ++
           (if env.chrootOk = false then []
            else [Event.runChild env.command])⟩ := by
  unfold prepOk at h
  cases hT : (getBearerToken env.image env.tok).2 with
  | error u => rw [hT] at h; simp at h
  | ok token =>
    rw [hT] at h
    simp only [] at h
    cases hM : (fetchManifest token env.image env.man).2 with
    | error u => rw [hM] at h; simp at h
    | ok manifest =>
      rw [hM] at h
      simp only [] at h
      cases hE : (extractImage env.mkdirTemp token env.image manifest
          env.layer).2 with
      | error e => rw [hE] at h; simp at h
      | ok u =>
        cases u
        rw [hE] at h
        simp only [Bool.and_eq_true] at h
        obtain ⟨hc, hd⟩ := h
        refine ⟨token, manifest, rfl, hM, hE, hc, hd, ?_⟩
        unfold runMain
        by_cases hcr : env.chrootOk = false
        · simp only [hT, hM, hE]
          simp [hc, hd, hcr, getBearerToken, fetchManifest]
        · cases hch : env.child <;>
          · simp only [hT, hM, hE]
            simp [hc, hd, hcr, hch, getBearerToken, fetchManifest]

theorem runMainPrepFail (env : Env) (h : prepOk env = false) :
    hasChroot (runMain env).trace = false ∧ (runMain env).exit = 1 := by
  unfold prepOk at h
  cases hT : (getBearerToken env.image env.tok).2 with
  | error u =>
    unfold runMain
    simp only [hT]
    simp [hasChroot, getBearerToken, isChroot]
  | ok token =>
    rw [hT] at h
    simp only [] at h
    cases hM : (fetchManifest token env.image env.man).2 with
    | error u =>
      unfold runMain
      simp only [hT, hM]
      simp [hasChroot, getBearerToken, fetchManifest, isChroot]
    | ok manifest =>
      rw [hM] at h
      simp only [] at h
      have hnc : (extractImage env.mkdirTemp token env.image manifest
          env.layer).1.any isChroot = false :=
        noChrootOfLayerEvents _
          (extractImageEventsLayer env.mkdirTemp token env.image manifest
            env.layer)
      cases hE : (extractImage env.mkdirTemp token env.image manifest
          env.layer).2 with
      | error e =>
        unfold runMain
        simp only [hT, hM, hE]
        simp [hasChroot, getBearerToken, fetchManifest, isChroot, hnc]
      | ok u =>
        cases u
        rw [hE] at h
        simp only [] at h
        unfold runMain
        simp only [hT, hM, hE]
        cases hc : env.copyOk with
        | false =>
          simp [hc, hasChroot, getBearerToken, fetchManifest, isChroot, hnc]
        | true =>
          rw [hc] at h
          simp only [Bool.true_and] at h
          simp [hc, h, hasChroot, getBearerToken, fetchManifest, isChroot,
            hnc]

/-- A layer environment in which every external call succeeds. -/
def allOkLayerEnv : LayerEnv :=
  ⟨false, ⟨200, "", []⟩, false, ⟨200, "", []⟩, false, false, true⟩

/-- A run in which the token endpoint answers status 401 with a JSON body
that unmarshals (token field empty), and everything else succeeds. -/
def c1Env : Env :=
  { image := "alpine", command := "/bin/echo", mkdirTemp := "/tmp/sandbox",
    mkdirTempErr := false,
    tok := ⟨false, 401, false, some ""⟩,
    man := ⟨false, false, Except.ok ⟨"alpine", "latest", []⟩⟩,
    layer := fun _ => allOkLayerEnv,
    copyOk := true, devNullOk := true, chrootOk := true,
    child := ChildResult.exited 0 }

/-- Claim C1 counterexample: the token endpoint responds with the
non-success status 401 and a JSON body (e.g. a registry error document)
that unmarshals with an empty token field. `getBearerToken` never inspects
the status code (main.go:138-158 has no `StatusCode` check), so
authentication does not fail: the manifest request is issued and the run
exits with code 0 — against the claim's exit code 1 and absent manifest
request. -/
theorem tokenStatusIgnored :
    c1Env.tok.status = 401 ∧
    (runMain c1Env).exit = 0 ∧
    hasManifestReq (runMain c1Env).trace = true := by
  refine ⟨rfl, ?_, ?_⟩ <;> rfl

/-- Claim C1 (amended): authentication fails — exit code 1 and no manifest
request ever issued — exactly when the token request's transport fails,
its body cannot be read, or its body fails to unmarshal as JSON; the HTTP
status code of the token response is never inspected, so a non-success
status whose body still parses does not by itself cause failure. -/
theorem authFailureStopsPipeline (env : Env)
    (h : env.tok.transportErr = true ∨ env.tok.readErr = true ∨
      env.tok.parseToken = none) :
    (runMain env).exit = 1 ∧ hasManifestReq (runMain env).trace = false := by
  have hErr : (getBearerToken env.image env.tok).2 = Except.error () := by
    unfold getBearerToken
    rcases h with h | h | h
    · simp [h]
    · cases henv : env.tok.transportErr <;> simp [h]
    · cases h1 : env.tok.transportErr <;> cases h2 : env.tok.readErr <;>
        simp [h]
  unfold runMain
  simp only [hErr]
  simp [hasManifestReq, getBearerToken]

/-- A run whose token response body is not valid JSON. -/
def c1FailEnv : Env :=
  { image := "alpine", command := "/bin/echo", mkdirTemp := "/tmp/sandbox",
    mkdirTempErr := false,
    tok := ⟨false, 401, false, none⟩,
    man := ⟨false, false, Except.ok ⟨"alpine", "latest", []⟩⟩,
    layer := fun _ => allOkLayerEnv,
    copyOk := true, devNullOk := true, chrootOk := true,
    child := ChildResult.exited 0 }

theorem authFailureStopsPipeline_witness :
    (runMain c1FailEnv).exit = 1 ∧
    hasManifestReq (runMain c1FailEnv).trace = false :=
  authFailureStopsPipeline c1FailEnv (Or.inr (Or.inr rfl))

/-- Claim C2: whenever the pipeline reaches the launch of the child
command, the program's own exit code is exactly the child's non-zero exit
status; if the child fails to even start, the program exits with code 1. -/
theorem childExitStatusForwarded (env : Env) (h : pipelineOk env = true) :
    (∀ s, s ≠ 0 → env.child = ChildResult.exited s →
      (runMain env).exit = s) ∧
    (env.child = ChildResult.startFailure → (runMain env).exit = 1) := by
  have h2 : prepOk env = true ∧ env.chrootOk = true := by
    simpa [pipelineOk, Bool.and_eq_true] using h
  obtain ⟨hprep, hchroot⟩ := h2
  obtain ⟨token, manifest, hT, hM, hE, hc, hd, hrun⟩ :=
    runMainPrepOkShape env hprep
  constructor
  · intro s hs hcs
    rw [hrun]
    simp [hchroot, hcs]
  · intro hcs
    rw [hrun]
    simp [hchroot, hcs]

/-- A fully successful run whose child terminates with status 137. -/
def c2Env : Env :=
  { image := "alpine", command := "/bin/sleep", mkdirTemp := "/tmp/sandbox",
    mkdirTempErr := false,
    tok := ⟨false, 200, false, some "tok"⟩,
    man := ⟨false, false, Except.ok ⟨"alpine", "latest", [⟨"b1"⟩]⟩⟩,
    layer := fun _ => allOkLayerEnv,
    copyOk := true, devNullOk := true, chrootOk := true,
    child := ChildResult.exited 137 }

theorem childExitStatusForwarded_witness :
    (runMain c2Env).exit = 137 :=
  (childExitStatusForwarded c2Env rfl).1 137 (by decide) rfl

/-- Claim C5: a chroot activation appears in a run's trace only when layer
extraction, the executable copy and the dev/null creation all succeeded,
with the copy and dev/null events strictly before the first chroot event
and no layer-materialization event after it; and when extraction, the
copy or the dev/null creation fails, the run performs no chroot at all and
exits with code 1. -/
theorem chrootOnlyAfterPreparation (env : Env) :
    (hasChroot (runMain env).trace = true →
      prepOk env = true ∧
      (beforeFirstChroot (runMain env).trace).any isCopyExec = true ∧
      (beforeFirstChroot (runMain env).trace).any isMkDevNull = true ∧
      ((afterFirstChroot (runMain env).trace).all fun e => !isLayerEvent e) =
        true) ∧
    ((extractStageFailed env || !env.copyOk || !env.devNullOk) = true →
      hasChroot (runMain env).trace = false ∧ (runMain env).exit = 1) := by
  constructor
  · intro hcr
    by_cases hp : prepOk env = true
    case neg =>
      exfalso
      have hfalse : prepOk env = false := by
        cases hpe : prepOk env
        · rfl
        · exact absurd hpe hp
      rw [(runMainPrepFail env hfalse).1] at hcr
      cases hcr
    case pos =>
      obtain ⟨token, manifest, hT, hM, hE, hc, hd, hrun⟩ :=
        runMainPrepOkShape env hp
      have hnc : (extractImage env.mkdirTemp token env.image manifest
          env.layer).1.any isChroot = false :=
        noChrootOfLayerEvents _
          (extractImageEventsLayer env.mkdirTemp token env.image manifest
            env.layer)
      have hbc : beforeFirstChroot (runMain env).trace =
          Event.tokenRequest env.image ::
            Event.manifestRequest env.image manifestTag token ::
            ((extractImage env.mkdirTemp token env.image manifest
              env.layer).1 ++
             [Event.copyExec env.command, Event.mkDevNull]) := by
        rw [hrun]
        simp only [List.append_assoc, List.cons_append, List.nil_append]
        rw [beforeFirstChroot_cons_of_not (Event.tokenRequest env.image) _
            rfl,
          beforeFirstChroot_cons_of_not
            (Event.manifestRequest env.image manifestTag token) _ rfl,
          beforeFirstChroot_append _ _ hnc,
          beforeFirstChroot_cons_of_not (Event.copyExec env.command) _ rfl,
          beforeFirstChroot_cons_of_not Event.mkDevNull _ rfl]
        rfl
      have hac : afterFirstChroot (runMain env).trace =
          (if env.chrootOk = false then []
           else [Event.runChild env.command]) := by
        rw [hrun]
        simp only [List.append_assoc, List.cons_append, List.nil_append]
        rw [afterFirstChroot_cons_of_not (Event.tokenRequest env.image) _
            rfl,
          afterFirstChroot_cons_of_not
            (Event.manifestRequest env.image manifestTag token) _ rfl,
          afterFirstChroot_append _ _ hnc,
          afterFirstChroot_cons_of_not (Event.copyExec env.command) _ rfl,
          afterFirstChroot_cons_of_not Event.mkDevNull _ rfl]
        rfl
      refine ⟨hp, ?_, ?_, ?_⟩
      · rw [hbc]
        simp [isCopyExec]
      · rw [hbc]
        simp [isMkDevNull]
      · rw [hac]
        by_cases hcrt : env.chrootOk = false <;>
          simp [hcrt, isLayerEvent]
  · intro hFail
    by_cases hp : prepOk env = true
    · exfalso
      obtain ⟨token, manifest, hT, hM, hE, hc, hd, _⟩ :=
        runMainPrepOkShape env hp
      have hesf : extractStageFailed env = false := by
        unfold extractStageFailed
        simp only [hT, hM, hE]
      rw [hesf, hc, hd] at hFail
      simp at hFail
    · have hfalse : prepOk env = false := by
        cases hpe : prepOk env
        · rfl
        · exact absurd hpe hp
      exact runMainPrepFail env hfalse

/-- A fully successful run used to instantiate the ordering claim. -/
def c5Env : Env :=
  { image := "alpine", command := "/bin/true", mkdirTemp := "/tmp/sandbox",
    mkdirTempErr := false,
    tok := ⟨false, 200, false, some "tok"⟩,
    man := ⟨false, false, Except.ok ⟨"alpine", "latest", [⟨"b1"⟩]⟩⟩,
    layer := fun _ => allOkLayerEnv,
    copyOk := true, devNullOk := true, chrootOk := true,
    child := ChildResult.exited 0 }

theorem chrootOnlyAfterPreparation_witness :
    prepOk c5Env = true ∧
    (beforeFirstChroot (runMain c5Env).trace).any isCopyExec = true ∧
    (beforeFirstChroot (runMain c5Env).trace).any isMkDevNull = true ∧
    ((afterFirstChroot (runMain c5Env).trace).all fun e => !isLayerEvent e) =
      true :=
  (chrootOnlyAfterPreparation c5Env).1 (by decide)

theorem stringNeAppendOld (s : String) : s ≠ s ++ ".old" := by
  intro hcontra
  have h2 := congrArg String.length hcontra
  rw [String.length_append] at h2
  have h3 : (".old" : String).length = 4 := rfl
  rw [h3] at h2
  omega

/-- Claim C10: when the destination of `CopyFile` already exists, its
content is not destroyed: in the resulting filesystem the old destination
file (content and mode) sits at the destination path suffixed with ".old",
and the destination path holds a copy of the source file. This is because
`CopyFile` first renames the existing destination to `<dst>.old`
(main.go:111-115) and only then creates the new destination file. -/
theorem copyPreservesExistingDestination (fs fsOut : Fs) (src dst : String)
    (f g : File) (hsrc : fs src = some f) (hdst : fs dst = some g)
    (hrun : CopyFile fs src dst = Except.ok fsOut) :
    fsOut (dst ++ ".old") = some g ∧ fsOut dst = some f := by
  obtain ⟨fc, fm⟩ := f
  have hne : ¬(dst = dst ++ ".old") := stringNeAppendOld dst
  have hne2 : ¬(dst ++ ".old" = dst) := fun hh => hne hh.symm
  unfold CopyFile at hrun
  simp only [hsrc, hdst] at hrun
  have hout : fsOut = ioCopy (openFileCreate
      (osRename fs dst (dst ++ ".old")) dst fm) dst fc :=
    (Except.ok.inj hrun).symm
  subst hout
  constructor
  · simp [ioCopy, openFileCreate, osRename, fsSet, hne, hne2, hdst]
  · simp [ioCopy, openFileCreate, osRename, fsSet, hne, hne2]

/-- A filesystem with an executable at /bin/sh and an older file already
sitting at the copy destination. -/
def c10Fs : Fs := fun p =>
  if p = "/bin/sh" then some ⟨[1, 2, 3], 493⟩
  else if p = "/root/bin/sh" then some ⟨[9], 256⟩
  else none

def c10Out : Fs :=
  (CopyFile c10Fs "/bin/sh" "/root/bin/sh").toOption.getD fun _ => none

theorem copyPreservesExistingDestination_witness :
    c10Out ("/root/bin/sh" ++ ".old") = some ⟨[9], 256⟩ ∧
    c10Out "/root/bin/sh" = some ⟨[1, 2, 3], 493⟩ :=
  copyPreservesExistingDestination c10Fs c10Out "/bin/sh" "/root/bin/sh"
    ⟨[1, 2, 3], 493⟩ ⟨[9], 256⟩ rfl rfl rfl

/-- Claim C7: after the root-preparation steps (executable copy followed by
dev/null creation) succeed, the sandbox root holds the target executable at
`path.Join(chrootDir, executablePath)` — the path implied by its original
host location — with content and permission bits identical to the source
file's, and a zero-length file at `path.Join(chrootDir, "dev", "null")`.
The hypothesis `hne` excludes the degenerate reference in which the
executable's own path inside the root is exactly the dev/null path. -/
theorem prepareRootPostcondition (fs fsOut : Fs) (chrootDir command : String)
    (srcFile : File) (hsrc : fs command = some srcFile)
    (hrun : prepareRoot fs chrootDir command = Except.ok fsOut)
    (hne : pathJoin chrootDir command ≠ devNullPath chrootDir) :
    fsOut (pathJoin chrootDir command) = some srcFile ∧
    isZeroLenAt fsOut (devNullPath chrootDir) = true := by
  obtain ⟨fc, fm⟩ := srcFile
  unfold prepareRoot copyExecutableIntoDir CopyFile at hrun
  simp only [hsrc] at hrun
  have hneOld : ¬(pathJoin chrootDir command =
      pathJoin chrootDir command ++ ".old") :=
    stringNeAppendOld (pathJoin chrootDir command)
  have hneOld2 : ¬(pathJoin chrootDir command ++ ".old" =
      pathJoin chrootDir command) := fun hh => hneOld hh.symm
  cases hd : fs (pathJoin chrootDir command) with
  | some g =>
    simp only [hd] at hrun
    have hout : fsOut = createDevNull (ioCopy (openFileCreate
        (osRename fs (pathJoin chrootDir command)
          (pathJoin chrootDir command ++ ".old"))
        (pathJoin chrootDir command) fm)
        (pathJoin chrootDir command) fc) chrootDir :=
      (Except.ok.inj hrun).symm
    subst hout
    constructor
    · simp [createDevNull, osWriteFile, ioCopy, openFileCreate, osRename,
        fsSet, hne, hneOld, hneOld2]
    · simp [createDevNull, osWriteFile, isZeroLenAt, fsSet]
  | none =>
    simp only [hd] at hrun
    have hout : fsOut = createDevNull (ioCopy (openFileCreate fs
        (pathJoin chrootDir command) fm)
        (pathJoin chrootDir command) fc) chrootDir :=
      (Except.ok.inj hrun).symm
    subst hout
    constructor
    · simp [createDevNull, osWriteFile, ioCopy, openFileCreate, osRename,
        fsSet, hne, hneOld, hneOld2, hd]
    · simp [createDevNull, osWriteFile, isZeroLenAt, fsSet]

/-- A filesystem holding only the host executable to be copied. -/
def c7Fs : Fs := fun p =>
  if p = "/usr/local/bin/app" then some ⟨[5, 6], 493⟩ else none

def c7Out : Fs :=
  (prepareRoot c7Fs "/tmp/root" "/usr/local/bin/app").toOption.getD
    fun _ => none

theorem prepareRootPostcondition_witness :
    c7Out (pathJoin "/tmp/root" "/usr/local/bin/app") = some ⟨[5, 6], 493⟩ ∧
    isZeroLenAt c7Out (devNullPath "/tmp/root") = true :=
  prepareRootPostcondition c7Fs c7Out "/tmp/root" "/usr/local/bin/app"
    ⟨[5, 6], 493⟩ rfl rfl (by decide)
